import Mathlib

/-!
Verification of the admin media-management client of this repository.

The definitions below are a shallow embedding of the TypeScript source:

* src/utils/admin/media.ts: upload validation constants and helpers
  (ALLOWED_MIME_TYPES, MAX_FILE_SIZE, validateFileForUpload,
  generateUniqueFilename, uploadFileToStorage, extractStoragePathFromUrl);
* src/components/admin/AuthGuard.tsx (AuthGuard, MediaUpload, MediaGallery):
  validateFile, uploadFile, handleFiles, the gallery search filter,
  deleteMedia, and the AuthGuard render function.

Browser files are modelled by their three fields read by the code
(name, size, type).  External effects (storage upload, public-URL request,
database insert/delete, the confirm prompt) are modelled by explicit
environment records listing each call outcome, and functions return the
list of network calls they issue, so that absence of retries and of
compensating rollbacks is a provable statement about the call trace.
JavaScript strings that the code splits character-by-character
(generateUniqueFilename, extractStoragePathFromUrl) are modelled as
List Char; everywhere else String is used.
-/

/-- A browser File as read by this code: name, byte size, MIME type. -/
structure JSFile where
  name : String
  size : Nat
  type : String
deriving DecidableEq

/-- ALLOWED_MIME_TYPES from src/utils/admin/media.ts. -/
def ALLOWED_MIME_TYPES : List String :=
  ["image/jpeg", "image/png", "image/webp", "image/gif", "image/svg+xml",
   "application/pdf"]

/-- MAX_FILE_SIZE from src/utils/admin/media.ts: 10MB in bytes. -/
def MAX_FILE_SIZE : Nat := 10 * 1024 * 1024

/-- validateFileForUpload from src/utils/admin/media.ts.
Checks size first (file.size > maxSize), then membership of the MIME type
in the allow-list; returns an error message, or none when the file is
accepted.  The numeric part of the size message models
(maxSize / 1024 / 1024).toFixed(0). -/
def validateFileForUpload (file : JSFile) (maxSize : Nat)
    (allowedTypes : List String) : Option String :=
  if maxSize < file.size then
    some ("File too large. Maximum size is " ++
      toString (maxSize / 1024 / 1024) ++ "MB.")
  else if file.type ∈ allowedTypes then
    none
  else
    some ("Invalid file type. Allowed types: " ++
      String.intercalate ", " allowedTypes)

/-- Props of the MediaUpload component that the validation reads:
maxSizeMB (default 10) and allowedTypes (default images only). -/
structure MUConfig where
  maxSizeMB : Nat
  allowedTypes : List String
deriving DecidableEq

/-- The MediaUpload defaults: maxSizeMB = 10, allowedTypes the five
image MIME types. -/
def defaultMUConfig : MUConfig :=
  ⟨10, ["image/jpeg", "image/png", "image/webp", "image/gif",
        "image/svg+xml"]⟩

/-- maxSizeBytes = maxSizeMB * 1024 * 1024 in MediaUpload. -/
def MUConfig.maxSizeBytes (cfg : MUConfig) : Nat :=
  cfg.maxSizeMB * 1024 * 1024

/-- validateFile from the MediaUpload component: size check against
maxSizeBytes, then MIME-type membership in the allowedTypes prop. -/
def validateFile (cfg : MUConfig) (file : JSFile) : Option String :=
  if cfg.maxSizeBytes < file.size then
    some ("File too large (max " ++ toString cfg.maxSizeMB ++ "MB)")
  else if file.type ∈ cfg.allowedTypes then
    none
  else
    some ("Invalid file type. Allowed: " ++
      String.intercalate ", " cfg.allowedTypes)

/-- Status of an upload entry in MediaUpload. -/
inductive UStatus where
  | pending
  | uploading
  | success
  | error
deriving DecidableEq

/-- The row shape inserted into the media_meta table by uploadFile. -/
structure MediaInsertRow where
  filename : String
  url : String
  size : Nat
  mime_type : String
deriving DecidableEq

/-- A network call issued against the external service. -/
inductive NetCall where
  | storageUpload (key : String)
  | getPublicUrl (key : String)
  | dbInsert (row : MediaInsertRow)
  | storageRemove (key : String)
  | dbDelete (id : String)
deriving DecidableEq

/-- One entry of the MediaUpload files list, as built by handleFiles.
uploadStarted records whether the upload of this entry was initiated. -/
structure UploadEntry where
  file : JSFile
  status : UStatus
  errorMsg : Option String
  uploadStarted : Bool
deriving DecidableEq

/-- Outcomes of the external calls that uploadFile performs, with the
generated storage key (timestamp plus random suffix) modelled as an
input.  In the SDK, getPublicUrl is a pure URL construction and cannot
fail, so it is modelled by the returned string alone. -/
structure UploadEnv where
  filename : String
  storageError : Option String
  publicUrl : String
  dbError : Option String
deriving DecidableEq

/-- The observable result of one run of uploadFile in MediaUpload:
the final status of the entry, its error field, its url field, the row
sent to the media_meta insert (if one was sent), whether the db failure
was logged with console.warn, and the list of network calls issued. -/
structure UploadOutcome where
  status : UStatus
  errorMsg : Option String
  url : Option String
  insertedRow : Option MediaInsertRow
  warnedDb : Bool
  calls : List NetCall
deriving DecidableEq

/-- uploadFile from the MediaUpload component.  A storage-upload error
is thrown, caught, logged, and sets the entry to status error.  On
storage success the public URL is requested and a metadata row inserted;
a db insert error is only logged with console.warn (it is not thrown),
and the entry is set to status success either way. -/
def uploadFile (env : UploadEnv) (file : JSFile) : UploadOutcome :=
  match env.storageError with
  | some e =>
    ⟨UStatus.error, some e, none, none, false, [NetCall.storageUpload env.filename]⟩
  | none =>
    let publicUrl := env.publicUrl
    let row : MediaInsertRow := ⟨file.name, publicUrl, file.size, file.type⟩
    ⟨UStatus.success, none, some publicUrl, some row, env.dbError.isSome,
     [NetCall.storageUpload env.filename, NetCall.getPublicUrl env.filename,
      NetCall.dbInsert row]⟩

/-- handleFiles from the MediaUpload component, restricted to the entry
list it builds: an invalid file is recorded with status error and its
upload is never started; a valid file is recorded with status pending
and its upload is started.  (In the source the start of the upload is
the call written uploadFile(uploadFile); the local constant shadows the
outer function there, but no claim depends on the valid branch.) -/
def handleFilesEntries (cfg : MUConfig) (files : List JSFile) :
    List UploadEntry :=
  files.map (fun file =>
    match validateFile cfg file with
    | some e => ⟨file, UStatus.error, some e, false⟩
    | none => ⟨file, UStatus.pending, none, true⟩)

/-- The network calls issued by one handleFiles batch: only entries whose
upload was started issue calls, namely those of uploadFile. -/
def handleFilesCalls (cfg : MUConfig) (envOf : JSFile → UploadEnv)
    (files : List JSFile) : List NetCall :=
  (handleFilesEntries cfg files).flatMap
    (fun en => if en.uploadStarted then (uploadFile (envOf en.file) en.file).calls
               else [])

/-- A row of the media_meta table as rendered by MediaGallery. -/
structure MediaItem where
  id : String
  filename : String
  url : String
  size : Nat
  mime_type : String
  uploaded_at : String
  alt_text : Option String
  tags : Option (List String)
deriving DecidableEq

/-- JavaScript String.prototype.includes: substring containment. -/
def jsIncludes (s sub : String) : Bool :=
  decide (sub.data <:+: s.data)

/-- JavaScript String.prototype.toLowerCase, on the character list of
the string. -/
def jsToLower (s : String) : String :=
  String.mk (s.data.map Char.toLower)

/-- The character list of JavaScript String.prototype.trim: whitespace
dropped from both ends. -/
def jsTrimData (s : String) : List Char :=
  ((s.data.dropWhile Char.isWhitespace).reverse.dropWhile
    Char.isWhitespace).reverse

/-- The filter predicate of the MediaGallery search effect, applied to
the already-lowercased query: filename match, or alt-text match through
optional chaining (false when alt_text is absent), or some-tag match
through optional chaining (false when tags is absent). -/
def mediaMatches (query : String) (item : MediaItem) : Bool :=
  jsIncludes (jsToLower item.filename) query ||
  (match item.alt_text with
   | some a => jsIncludes (jsToLower a) query
   | none => false) ||
  (match item.tags with
   | some ts => ts.any (fun tag => jsIncludes (jsToLower tag) query)
   | none => false)

/-- The MediaGallery search effect: when the trimmed query is empty the
full media list is shown, otherwise the list is filtered with the
lowercased query. -/
def filterMedia (searchQuery : String) (media : List MediaItem) :
    List MediaItem :=
  if (jsTrimData searchQuery).isEmpty then media
  else media.filter (fun item => mediaMatches (jsToLower searchQuery) item)

/-- Specification-side match predicate, following the claim's words: the
lowercased query is a substring of the lowercased filename, or of the
lowercased alt text when present, or of at least one lowercased tag. -/
def specMatches (searchQuery : String) (item : MediaItem) : Prop :=
  (jsToLower searchQuery).data <:+: (jsToLower item.filename).data ∨
  (∃ a, item.alt_text = some a ∧
    (jsToLower searchQuery).data <:+: (jsToLower a).data) ∨
  (∃ ts tag, item.tags = some ts ∧ tag ∈ ts ∧
    (jsToLower searchQuery).data <:+: (jsToLower tag).data)

/-- The concrete item of the claim example: filename beach.jpg with the
single tag summer. -/
def beachItem : MediaItem :=
  ⟨"1", "beach.jpg", "https://example.com/media/beach.jpg", 1024,
   "image/jpeg", "2025-01-01T00:00:00Z", none, some ["summer"]⟩

/-- JavaScript String.prototype.split with a one-character separator,
on strings modelled as character lists.  split always returns at least
one (possibly empty) segment. -/
def jsSplit (c : Char) : List Char → List (List Char)
  | [] => [[]]
  | x :: xs =>
    match jsSplit c xs with
    | [] => [[]]
    | h :: t => if x = c then [] :: h :: t else (x :: h) :: t

/-- JavaScript Array.prototype.pop applied to a split result: the last
segment (the empty string on an empty array, which split never yields). -/
def jsPop : List (List Char) → List Char
  | [] => []
  | [s] => s
  | _ :: s :: t => jsPop (s :: t)

/-- generateUniqueFilename from src/utils/admin/media.ts, with Date.now()
and the random base-36 suffix modelled as inputs: the extension is
originalFilename.split('.').pop(), and the result is
timestamp-random.ext. -/
def generateUniqueFilename (timestamp random originalFilename : List Char) :
    List Char :=
  let ext := jsPop (jsSplit '.' originalFilename)
  timestamp ++ '-' :: (random ++ '.' :: ext)

/-- Modelled from the spec: the external getPublicUrl returns the bucket
base URL, a slash, and the storage key. -/
def getPublicUrlModel (baseUrl key : List Char) : List Char :=
  baseUrl ++ '/' :: key

/-- The success path of uploadFileToStorage from src/utils/admin/media.ts:
generate the unique filename, upload under it, and return the public URL
together with the storage path (the filename). -/
def uploadFileToStorage (baseUrl timestamp random fileName : List Char) :
    List Char × List Char :=
  let filename := generateUniqueFilename timestamp random fileName
  (getPublicUrlModel baseUrl filename, filename)

/-- extractStoragePathFromUrl from src/utils/admin/media.ts:
url.split('/'), then parts[parts.length - 1]. -/
def extractStoragePathFromUrl (url : List Char) : List Char :=
  let parts := jsSplit '/' url
  parts.getD (parts.length - 1) []

/-- The storage filename deleteMedia derives from a stored URL:
item.url.split('/') and its last element, as in
extractStoragePathFromUrl. -/
def storageFilenameOf (url : String) : String :=
  String.mk (extractStoragePathFromUrl url.data)

/-- Outcomes of the external interactions of deleteMedia: the confirm
prompt answer, the storage removal outcome, and the row delete outcome. -/
structure DeleteEnv where
  confirmed : Bool
  storageError : Option String
  dbError : Option String
deriving DecidableEq

/-- The observable result of one run of deleteMedia: the two rendered
lists, the network calls issued, and whether the failure alert fired. -/
structure DeleteOutcome where
  media : List MediaItem
  filteredMedia : List MediaItem
  calls : List NetCall
  alerted : Bool
deriving DecidableEq

/-- deleteMedia from MediaGallery.  A declined confirm returns at once.
Otherwise the storage object named by the last URL segment is removed;
a storage error is thrown, caught and alerted with both lists untouched;
then the row is deleted by id, a db error likewise leaving both lists
untouched; on success both lists drop every entry with the item's id. -/
def deleteMedia (env : DeleteEnv) (item : MediaItem)
    (media filteredMedia : List MediaItem) : DeleteOutcome :=
  if env.confirmed then
    let key := storageFilenameOf item.url
    match env.storageError with
    | some _ => ⟨media, filteredMedia, [NetCall.storageRemove key], true⟩
    | none =>
      match env.dbError with
      | some _ =>
        ⟨media, filteredMedia,
         [NetCall.storageRemove key, NetCall.dbDelete item.id], true⟩
      | none =>
        ⟨media.filter (fun m => m.id != item.id),
         filteredMedia.filter (fun m => m.id != item.id),
         [NetCall.storageRemove key, NetCall.dbDelete item.id], false⟩
  else ⟨media, filteredMedia, [], false⟩

/-- What one AuthGuard render produces: the loading view, a null render
for an unauthenticated user (carrying the redirect target assigned to
window.location.href, none when window is undefined), or the protected
children. -/
inductive AuthRender where
  | loadingView
  | denied (redirect : Option String)
  | childrenView
deriving DecidableEq

/-- The default of the redirectTo prop of AuthGuard. -/
def defaultRedirectTo : String := "/admin/login"

/-- The AuthGuard component body: the loading view while loading; for a
null session a null render, assigning the redirect target to
window.location.href when window is defined; otherwise the children. -/
def authGuardRender (hasWindow : Bool) (redirectTo : String)
    (loading : Bool) (session : Option Unit) : AuthRender :=
  if loading then AuthRender.loadingView
  else
    match session with
    | none => AuthRender.denied (if hasWindow then some redirectTo else none)
    | some _ => AuthRender.childrenView

/-- C1: a file strictly larger than the configured maximum is rejected by
both client-side validators with a non-null message, and handleFiles
records it with status error and issues no network call for it. -/
theorem oversize_rejected_before_network
    (maxSize : Nat) (allowedTypes : List String) (cfg : MUConfig)
    (envOf : JSFile → UploadEnv) (file : JSFile)
    (h1 : maxSize < file.size) (h2 : cfg.maxSizeBytes < file.size) :
    (validateFileForUpload file maxSize allowedTypes).isSome = true ∧
    (validateFile cfg file).isSome = true ∧
    handleFilesEntries cfg [file] =
      [⟨file, UStatus.error, validateFile cfg file, false⟩] ∧
    handleFilesCalls cfg envOf [file] = [] := by
  have hv : (validateFile cfg file).isSome = true := by
    simp [validateFile, h2]
  refine ⟨by simp [validateFileForUpload, h1], hv, ?_, ?_⟩
  · rcases ho : validateFile cfg file with _ | e
    · rw [ho] at hv; simp at hv
    · simp [handleFilesEntries, ho]
  · rcases ho : validateFile cfg file with _ | e
    · rw [ho] at hv; simp at hv
    · simp [handleFilesCalls, handleFilesEntries, ho]

/-- C1 witness: an 11MB PNG under the default configurations. -/
theorem oversize_rejected_before_network_witness :
    (validateFileForUpload ⟨"big.png", 11 * 1024 * 1024, "image/png"⟩
        MAX_FILE_SIZE ALLOWED_MIME_TYPES).isSome = true ∧
    (validateFile defaultMUConfig
        ⟨"big.png", 11 * 1024 * 1024, "image/png"⟩).isSome = true ∧
    handleFilesEntries defaultMUConfig
        [⟨"big.png", 11 * 1024 * 1024, "image/png"⟩] =
      [⟨⟨"big.png", 11 * 1024 * 1024, "image/png"⟩, UStatus.error,
        validateFile defaultMUConfig ⟨"big.png", 11 * 1024 * 1024, "image/png"⟩,
        false⟩] ∧
    handleFilesCalls defaultMUConfig (fun _ => ⟨"k", none, "u", none⟩)
        [⟨"big.png", 11 * 1024 * 1024, "image/png"⟩] = [] :=
  oversize_rejected_before_network MAX_FILE_SIZE ALLOWED_MIME_TYPES
    defaultMUConfig (fun _ => ⟨"k", none, "u", none⟩)
    ⟨"big.png", 11 * 1024 * 1024, "image/png"⟩ (by decide) (by decide)

/-- C2: a file whose MIME type is outside the allow-list is rejected by
both client-side validators with a non-null message, and handleFiles
records it with status error and issues no network call for it. -/
theorem bad_mime_rejected_before_network
    (maxSize : Nat) (allowedTypes : List String) (cfg : MUConfig)
    (envOf : JSFile → UploadEnv) (file : JSFile)
    (h1 : file.type ∉ allowedTypes) (h2 : file.type ∉ cfg.allowedTypes) :
    (validateFileForUpload file maxSize allowedTypes).isSome = true ∧
    (validateFile cfg file).isSome = true ∧
    handleFilesEntries cfg [file] =
      [⟨file, UStatus.error, validateFile cfg file, false⟩] ∧
    handleFilesCalls cfg envOf [file] = [] := by
  have hv : (validateFile cfg file).isSome = true := by
    unfold validateFile
    by_cases hs : cfg.maxSizeBytes < file.size <;> simp [hs, h2]
  have hu : (validateFileForUpload file maxSize allowedTypes).isSome = true := by
    unfold validateFileForUpload
    by_cases hs : maxSize < file.size <;> simp [hs, h1]
  refine ⟨hu, hv, ?_, ?_⟩
  · rcases ho : validateFile cfg file with _ | e
    · rw [ho] at hv; simp at hv
    · simp [handleFilesEntries, ho]
  · rcases ho : validateFile cfg file with _ | e
    · rw [ho] at hv; simp at hv
    · simp [handleFilesCalls, handleFilesEntries, ho]

/-- C2 witness: a small zip file under the default configurations. -/
theorem bad_mime_rejected_before_network_witness :
    (validateFileForUpload ⟨"a.zip", 100, "application/zip"⟩
        MAX_FILE_SIZE ALLOWED_MIME_TYPES).isSome = true ∧
    (validateFile defaultMUConfig ⟨"a.zip", 100, "application/zip"⟩).isSome = true ∧
    handleFilesEntries defaultMUConfig [⟨"a.zip", 100, "application/zip"⟩] =
      [⟨⟨"a.zip", 100, "application/zip"⟩, UStatus.error,
        validateFile defaultMUConfig ⟨"a.zip", 100, "application/zip"⟩, false⟩] ∧
    handleFilesCalls defaultMUConfig (fun _ => ⟨"k", none, "u", none⟩)
        [⟨"a.zip", 100, "application/zip"⟩] = [] :=
  bad_mime_rejected_before_network MAX_FILE_SIZE ALLOWED_MIME_TYPES
    defaultMUConfig (fun _ => ⟨"k", none, "u", none⟩)
    ⟨"a.zip", 100, "application/zip"⟩ (by decide) (by decide)

/-- C7 counterexample: a file of exactly 10MB is accepted by the default
validation although its size is not strictly below 10*1024*1024, and a
file of size 0 is accepted although its size is not strictly positive. -/
theorem accepted_size_bounds_counterexample :
    validateFileForUpload ⟨"photo.png", 10 * 1024 * 1024, "image/png"⟩
        MAX_FILE_SIZE ALLOWED_MIME_TYPES = none ∧
    ¬((10 : Nat) * 1024 * 1024 < 10 * 1024 * 1024) ∧
    validateFileForUpload ⟨"empty.png", 0, "image/png"⟩
        MAX_FILE_SIZE ALLOWED_MIME_TYPES = none ∧
    ¬((0 : Nat) < 0) := by
  refine ⟨by decide, by decide, by decide, by decide⟩

/-- C7 amended: every file accepted by validateFileForUpload under the
default maximum has size at most 10*1024*1024 bytes (the code enforces
size less than or equal to the maximum, not a strict bound, and does not
require positivity). -/
theorem accepted_size_le_max (file : JSFile)
    (h : validateFileForUpload file MAX_FILE_SIZE ALLOWED_MIME_TYPES = none) :
    file.size ≤ 10 * 1024 * 1024 := by
  by_contra hgt
  push_neg at hgt
  have : MAX_FILE_SIZE < file.size := by
    simpa [MAX_FILE_SIZE] using hgt
  simp [validateFileForUpload, this] at h

/-- C7 amended witness: a 5MB JPEG is accepted and within the bound. -/
theorem accepted_size_le_max_witness :
    validateFileForUpload ⟨"a.jpg", 5 * 1024 * 1024, "image/jpeg"⟩
        MAX_FILE_SIZE ALLOWED_MIME_TYPES = none ∧
    (5 : Nat) * 1024 * 1024 ≤ 10 * 1024 * 1024 :=
  ⟨by decide,
   accepted_size_le_max ⟨"a.jpg", 5 * 1024 * 1024, "image/jpeg"⟩ (by decide)⟩

/-- C3 counterexample: with a successful storage upload and a failing
metadata insert, uploadFile marks the item success, not error, only
logging the db failure with console.warn. -/
theorem upload_db_failure_counterexample :
    (uploadFile ⟨"170-ab.png", none, "https://x.co/media/170-ab.png", some "insert failed"⟩
        ⟨"photo.png", 1024, "image/png"⟩).status = UStatus.success ∧
    (uploadFile ⟨"170-ab.png", none, "https://x.co/media/170-ab.png", some "insert failed"⟩
        ⟨"photo.png", 1024, "image/png"⟩).status ≠ UStatus.error ∧
    (⟨"170-ab.png", none, "https://x.co/media/170-ab.png", some "insert failed"⟩ :
        UploadEnv).storageError = none ∧
    (⟨"170-ab.png", none, "https://x.co/media/170-ab.png", some "insert failed"⟩ :
        UploadEnv).dbError = some "insert failed" := by
  refine ⟨rfl, by decide, rfl, rfl⟩

/-- C3 amended: a storage-upload failure is logged and sets the entry to
status error with that message, after exactly one storage call and with
no retry, no public-URL request, no insert and no compensating call; on
storage success the three calls are issued exactly once each in order, a
metadata-insert failure is only logged with console.warn, the entry is
still marked success, and no compensating storage removal or db call is
issued. -/
theorem upload_failure_handling (env : UploadEnv) (file : JSFile) :
    (∀ e, env.storageError = some e →
      (uploadFile env file).status = UStatus.error ∧
      (uploadFile env file).errorMsg = some e ∧
      (uploadFile env file).calls = [NetCall.storageUpload env.filename]) ∧
    (env.storageError = none →
      (uploadFile env file).status = UStatus.success ∧
      (uploadFile env file).warnedDb = env.dbError.isSome ∧
      (uploadFile env file).calls =
        [NetCall.storageUpload env.filename, NetCall.getPublicUrl env.filename,
         NetCall.dbInsert ⟨file.name, env.publicUrl, file.size, file.type⟩]) ∧
    (∀ k, NetCall.storageRemove k ∉ (uploadFile env file).calls) ∧
    (∀ i, NetCall.dbDelete i ∉ (uploadFile env file).calls) := by
  obtain ⟨fn, se, pu, de⟩ := env
  cases se with
  | some e =>
    refine ⟨fun e' he' => ?_, fun hn => by simp at hn, fun k => ?_, fun i => ?_⟩
    · injection he' with h
      subst h
      exact ⟨rfl, rfl, rfl⟩
    · simp [uploadFile]
    · simp [uploadFile]
  | none =>
    refine ⟨fun e' he' => by simp at he', fun _ => ⟨rfl, rfl, rfl⟩,
      fun k => ?_, fun i => ?_⟩
    · simp [uploadFile]
    · simp [uploadFile]

/-- C3 amended witness: one failing-storage run and one successful-storage
run with failing insert, at concrete inputs. -/
theorem upload_failure_handling_witness :
    ((uploadFile ⟨"k1.png", some "network down", "u", none⟩
        ⟨"a.png", 7, "image/png"⟩).status = UStatus.error ∧
     (uploadFile ⟨"k1.png", some "network down", "u", none⟩
        ⟨"a.png", 7, "image/png"⟩).errorMsg = some "network down" ∧
     (uploadFile ⟨"k1.png", some "network down", "u", none⟩
        ⟨"a.png", 7, "image/png"⟩).calls = [NetCall.storageUpload "k1.png"]) ∧
    ((uploadFile ⟨"k2.png", none, "https://x.co/k2.png", some "db down"⟩
        ⟨"b.png", 9, "image/png"⟩).status = UStatus.success ∧
     (uploadFile ⟨"k2.png", none, "https://x.co/k2.png", some "db down"⟩
        ⟨"b.png", 9, "image/png"⟩).warnedDb =
       (some "db down" : Option String).isSome ∧
     (uploadFile ⟨"k2.png", none, "https://x.co/k2.png", some "db down"⟩
        ⟨"b.png", 9, "image/png"⟩).calls =
       [NetCall.storageUpload "k2.png", NetCall.getPublicUrl "k2.png",
        NetCall.dbInsert ⟨"b.png", "https://x.co/k2.png", 9, "image/png"⟩]) :=
  ⟨(upload_failure_handling ⟨"k1.png", some "network down", "u", none⟩
      ⟨"a.png", 7, "image/png"⟩).1 "network down" rfl,
   (upload_failure_handling ⟨"k2.png", none, "https://x.co/k2.png", some "db down"⟩
      ⟨"b.png", 9, "image/png"⟩).2.1 rfl⟩

/-- C9: whenever uploadFile marks the entry success, the row sent to the
media_meta insert exists and carries exactly the source file's name, the
obtained public URL, the file's byte size, and the file's MIME type; the
entry's url field is that same public URL. -/
theorem success_row_matches_file (env : UploadEnv) (file : JSFile)
    (h : (uploadFile env file).status = UStatus.success) :
    (uploadFile env file).insertedRow =
      some ⟨file.name, env.publicUrl, file.size, file.type⟩ ∧
    (uploadFile env file).url = some env.publicUrl := by
  obtain ⟨fn, se, pu, de⟩ := env
  cases se with
  | some e => simp [uploadFile] at h
  | none => exact ⟨rfl, rfl⟩

/-- C9 witness: a concrete successful upload run. -/
theorem success_row_matches_file_witness :
    (uploadFile ⟨"k3.webp", none, "https://x.co/k3.webp", none⟩
        ⟨"c.webp", 42, "image/webp"⟩).insertedRow =
      some ⟨"c.webp", "https://x.co/k3.webp", 42, "image/webp"⟩ ∧
    (uploadFile ⟨"k3.webp", none, "https://x.co/k3.webp", none⟩
        ⟨"c.webp", 42, "image/webp"⟩).url = some "https://x.co/k3.webp" :=
  success_row_matches_file ⟨"k3.webp", none, "https://x.co/k3.webp", none⟩
    ⟨"c.webp", 42, "image/webp"⟩ rfl

/-- C6: in a browser render with loading false and session null,
AuthGuard renders null with a redirect to the redirectTo route (by
default /admin/login) and does not render its children; the children
render exactly in the states where loading is over and a session is
present. -/
theorem authguard_blocks_unauthenticated (hasWindow : Bool)
    (redirectTo : String) (loading : Bool) (session : Option Unit)
    (hw : hasWindow = true) :
    (loading = false → session = none →
      authGuardRender hasWindow redirectTo loading session =
        AuthRender.denied (some redirectTo) ∧
      authGuardRender hasWindow redirectTo loading session ≠
        AuthRender.childrenView) ∧
    (authGuardRender hasWindow redirectTo loading session =
        AuthRender.childrenView ↔
      loading = false ∧ session.isSome = true) ∧
    defaultRedirectTo = "/admin/login" := by
  subst hw
  cases loading <;> cases session <;>
    simp [authGuardRender, defaultRedirectTo]

/-- C6 witness: the unauthenticated state with the default redirect, and
the authenticated state, at concrete inputs. -/
theorem authguard_blocks_unauthenticated_witness :
    (authGuardRender true defaultRedirectTo false none =
        AuthRender.denied (some defaultRedirectTo) ∧
      authGuardRender true defaultRedirectTo false none ≠
        AuthRender.childrenView) ∧
    (authGuardRender true defaultRedirectTo false (some ()) =
        AuthRender.childrenView ↔
      false = false ∧ (some ()).isSome = true) :=
  ⟨(authguard_blocks_unauthenticated true defaultRedirectTo false none
      rfl).1 rfl rfl,
   (authguard_blocks_unauthenticated true defaultRedirectTo false (some ())
      rfl).2.1⟩

/-- C5: a declined confirm leaves both lists as they are and issues no
external call; when both the storage removal and the row delete succeed
both rendered lists drop the item's id; when either call fails both
lists are unchanged; and, for an item present in both lists, the item
disappears from them exactly when both calls succeed. -/
theorem delete_removes_iff_both_succeed (env : DeleteEnv)
    (item : MediaItem) (media filteredMedia : List MediaItem)
    (hm : item ∈ media) (_hf : item ∈ filteredMedia) :
    (env.confirmed = false →
      deleteMedia env item media filteredMedia =
        ⟨media, filteredMedia, [], false⟩) ∧
    (env.confirmed = true → env.storageError = none → env.dbError = none →
      (deleteMedia env item media filteredMedia).media =
        media.filter (fun m => m.id != item.id) ∧
      (deleteMedia env item media filteredMedia).filteredMedia =
        filteredMedia.filter (fun m => m.id != item.id)) ∧
    (env.confirmed = true → ¬(env.storageError = none ∧ env.dbError = none) →
      (deleteMedia env item media filteredMedia).media = media ∧
      (deleteMedia env item media filteredMedia).filteredMedia =
        filteredMedia) ∧
    (env.confirmed = true →
      ((item ∉ (deleteMedia env item media filteredMedia).media ∧
        item ∉ (deleteMedia env item media filteredMedia).filteredMedia) ↔
        (env.storageError = none ∧ env.dbError = none))) := by
  refine ⟨?_, ?_, ?_, ?_⟩
  · intro h1
    simp [deleteMedia, h1]
  · intro h1 h2 h3
    simp [deleteMedia, h1, h2, h3]
  · intro h1 h2
    rcases hse : env.storageError with _ | e
    · rcases hde : env.dbError with _ | e2
      · exact absurd ⟨hse, hde⟩ h2
      · simp [deleteMedia, h1, hse, hde]
    · simp [deleteMedia, h1, hse]
  · intro h1
    rcases hse : env.storageError with _ | e
    · rcases hde : env.dbError with _ | e2
      · simp only [deleteMedia, h1, hse, hde, if_true]
        constructor
        · intro _
          exact ⟨trivial, trivial⟩
        · intro _
          constructor
          · intro hmem
            rcases List.mem_filter.mp hmem with ⟨-, hne⟩
            simp at hne
          · intro hmem
            rcases List.mem_filter.mp hmem with ⟨-, hne⟩
            simp at hne
      · simp only [deleteMedia, h1, hse, hde, if_true]
        constructor
        · rintro ⟨hnm, -⟩
          exact absurd hm hnm
        · rintro ⟨-, h⟩
          simp at h
    · simp only [deleteMedia, h1, hse, if_true]
      constructor
      · rintro ⟨hnm, -⟩
        exact absurd hm hnm
      · rintro ⟨h, -⟩
        simp at h

/-- C5 witness: both calls succeed on a singleton gallery, and the item
is dropped from both lists. -/
theorem delete_removes_iff_both_succeed_witness :
    (deleteMedia ⟨true, none, none⟩ beachItem [beachItem] [beachItem]).media =
      [beachItem].filter (fun m => m.id != beachItem.id) ∧
    (deleteMedia ⟨true, none, none⟩ beachItem [beachItem]
        [beachItem]).filteredMedia =
      [beachItem].filter (fun m => m.id != beachItem.id) :=
  (delete_removes_iff_both_succeed ⟨true, none, none⟩ beachItem [beachItem]
    [beachItem] (by simp) (by simp)).2.1 rfl rfl rfl

/-- The Boolean filter predicate of the gallery search agrees with the
specification-side match predicate. -/
theorem mediaMatches_iff_specMatches (searchQuery : String)
    (item : MediaItem) :
    mediaMatches (jsToLower searchQuery) item = true ↔
      specMatches searchQuery item := by
  rcases item with ⟨id, fn, url, sz, mt, ua, alt, tags⟩
  unfold mediaMatches specMatches jsIncludes
  rcases alt with _ | a <;> rcases tags with _ | ts <;>
    simp [List.any_eq_true, or_assoc]

/-- C4: with an all-whitespace query the filtered list is the whole
list; with a non-blank query an item is kept exactly when it is in the
list and the lowercased query occurs in its lowercased filename, its
lowercased alt text when present, or one of its lowercased tags; and
the query SUM matches the beach.jpg item through its tag summer. -/
theorem gallery_filter_characterization (media : List MediaItem)
    (searchQuery : String) :
    ((jsTrimData searchQuery).isEmpty = true →
      filterMedia searchQuery media = media) ∧
    ((jsTrimData searchQuery).isEmpty = false →
      ∀ item, item ∈ filterMedia searchQuery media ↔
        item ∈ media ∧ specMatches searchQuery item) ∧
    filterMedia "SUM" [beachItem] = [beachItem] := by
  refine ⟨?_, ?_, ?_⟩
  · intro h
    simp [filterMedia, h]
  · intro h item
    simp [filterMedia, h, List.mem_filter, mediaMatches_iff_specMatches]
  · decide

/-- C4 witness: the blank-query case and the SUM example, at concrete
inputs. -/
theorem gallery_filter_characterization_witness :
    filterMedia "  " [beachItem] = [beachItem] ∧
    (beachItem ∈ filterMedia "SUM" [beachItem] ↔
      beachItem ∈ [beachItem] ∧ specMatches "SUM" beachItem) :=
  ⟨(gallery_filter_characterization [beachItem] "  ").1 (by decide),
   (gallery_filter_characterization [beachItem] "SUM").2.1 (by decide)
     beachItem⟩

/-- split always returns at least one segment. -/
theorem jsSplit_ne_nil (c : Char) (l : List Char) : jsSplit c l ≠ [] := by
  cases l with
  | nil => simp [jsSplit]
  | cons x xs =>
    cases hsp : jsSplit c xs with
    | nil => simp [jsSplit, hsp]
    | cons h t =>
      by_cases hx : x = c <;> simp [jsSplit, hsp, hx]

/-- The last segment of a nonempty list is unchanged by consing. -/
theorem jsPop_cons (a : List Char) (l : List (List Char)) (hl : l ≠ []) :
    jsPop (a :: l) = jsPop l := by
  cases l with
  | nil => exact absurd rfl hl
  | cons s t => rfl

/-- The last segment of a split never contains the separator; when the
separator occurs in the list, the list decomposes as a prefix, the
separator, and the last segment, and the split has at least two
segments; when it does not occur, the split is the singleton of the
whole list. -/
theorem jsSplit_pop_spec (c : Char) (l : List Char) :
    c ∉ jsPop (jsSplit c l) ∧
    (c ∈ l → (∃ p, l = p ++ c :: jsPop (jsSplit c l)) ∧
      2 ≤ (jsSplit c l).length) ∧
    (c ∉ l → jsSplit c l = [l]) := by
  induction l with
  | nil =>
    refine ⟨?_, ?_, ?_⟩
    · simp [jsSplit, jsPop]
    · intro h
      simp at h
    · intro _
      rfl
  | cons x xs ih =>
    obtain ⟨ih1, ih2, ih3⟩ := ih
    cases hsp : jsSplit c xs with
    | nil => exact absurd hsp (jsSplit_ne_nil c xs)
    | cons h t =>
      by_cases hx : x = c
      · have hsplit : jsSplit c (x :: xs) = [] :: h :: t := by
          simp [jsSplit, hsp, hx]
        have hpop : jsPop (jsSplit c (x :: xs)) = jsPop (jsSplit c xs) := by
          rw [hsplit, hsp]
          rfl
        refine ⟨?_, ?_, ?_⟩
        · rw [hpop]
          exact ih1
        · intro _
          refine ⟨?_, ?_⟩
          · by_cases hm : c ∈ xs
            · obtain ⟨⟨p, hp⟩, -⟩ := ih2 hm
              refine ⟨x :: p, ?_⟩
              rw [hpop]
              simp only [List.cons_append]
              exact congrArg _ hp
            · have h3 := ih3 hm
              rw [hsp] at h3
              injection h3 with h31 h32
              subst h31
              subst h32
              refine ⟨[], ?_⟩
              rw [hpop, hsp]
              simp [jsPop, hx]
          · rw [hsplit]
            simp
        · intro hn
          exact absurd (show c ∈ x :: xs by simp [hx]) hn
      · have hsplit : jsSplit c (x :: xs) = (x :: h) :: t := by
          simp [jsSplit, hsp, hx]
        by_cases hm : c ∈ xs
        · obtain ⟨⟨p, hp⟩, hlen⟩ := ih2 hm
          have ht : t ≠ [] := by
            rw [hsp] at hlen
            cases t
            · simp at hlen
            · simp
          have hpop : jsPop (jsSplit c (x :: xs)) = jsPop (jsSplit c xs) := by
            rw [hsplit, hsp, jsPop_cons _ _ ht, jsPop_cons _ _ ht]
          refine ⟨?_, ?_, ?_⟩
          · rw [hpop]
            exact ih1
          · intro _
            refine ⟨⟨x :: p, ?_⟩, ?_⟩
            · rw [hpop]
              simp only [List.cons_append]
              exact congrArg _ hp
            · rw [hsplit]
              cases t
              · exact absurd rfl ht
              · simp
          · intro hn
            exact absurd (List.mem_cons_of_mem x hm) hn
        · have h3 := ih3 hm
          rw [hsp] at h3
          injection h3 with h31 h32
          have hsplit2 : jsSplit c (x :: xs) = [x :: xs] := by
            rw [hsplit, h31, h32]
          refine ⟨?_, ?_, ?_⟩
          · rw [hsplit2]
            show c ∉ x :: xs
            intro hc
            rcases List.mem_cons.mp hc with h1 | h2
            · exact hx h1.symm
            · exact hm h2
          · intro hc
            rcases List.mem_cons.mp hc with h1 | h2
            · exact absurd h1.symm hx
            · exact absurd h2 hm
          · intro _
            exact hsplit2

/-- Indexing a list at length minus one is its last segment. -/
theorem getD_last (xs : List (List Char)) :
    xs.getD (xs.length - 1) [] = jsPop xs := by
  induction xs with
  | nil => rfl
  | cons a l ih =>
    cases l with
    | nil => rfl
    | cons b t =>
      have hlen : (a :: b :: t).length - 1 = t.length + 1 := by simp
      rw [hlen, List.getD_cons_succ]
      have h2 : (b :: t).length - 1 = t.length := by simp
      rw [h2] at ih
      rw [ih]
      rfl

/-- The last split segment of a list built as prefix, separator, key is
the key, when the key contains no separator. -/
theorem jsSplit_append_key (c : Char) (pre key : List Char)
    (hk : c ∉ key) :
    jsPop (jsSplit c (pre ++ c :: key)) = key := by
  induction pre with
  | nil =>
    have h3 := (jsSplit_pop_spec c key).2.2 hk
    simp only [List.nil_append]
    have hsplit : jsSplit c (c :: key) = [[], key] := by
      simp [jsSplit, h3]
    rw [hsplit]
    rfl
  | cons x pre ih =>
    have hmem : c ∈ pre ++ c :: key := by simp
    have hlen := ((jsSplit_pop_spec c (pre ++ c :: key)).2.1 hmem).2
    cases hsp : jsSplit c (pre ++ c :: key) with
    | nil => exact absurd hsp (jsSplit_ne_nil c _)
    | cons h t =>
      have ht : t ≠ [] := by
        rw [hsp] at hlen
        cases t
        · simp at hlen
        · simp
      simp only [List.cons_append]
      by_cases hx : x = c
      · have hsplit : jsSplit c (x :: (pre ++ c :: key)) = [] :: h :: t := by
          simp [jsSplit, hsp, hx]
        rw [hsplit]
        have hred : jsPop ([] :: h :: t) = jsPop (h :: t) := rfl
        rw [hred, ← hsp]
        exact ih
      · have hsplit : jsSplit c (x :: (pre ++ c :: key)) = (x :: h) :: t := by
          simp [jsSplit, hsp, hx]
        rw [hsplit, jsPop_cons _ _ ht, ← jsPop_cons h t ht, ← hsp]
        exact ih

/-- Every character of the last split segment is a character of the
original list. -/
theorem jsPop_split_chars (c : Char) (l : List Char) (a : Char)
    (ha : a ∈ jsPop (jsSplit c l)) : a ∈ l := by
  induction l with
  | nil =>
    simp [jsSplit, jsPop] at ha
  | cons x xs ih =>
    cases hsp : jsSplit c xs with
    | nil => exact absurd hsp (jsSplit_ne_nil c xs)
    | cons h t =>
      by_cases hx : x = c
      · have hsplit : jsSplit c (x :: xs) = [] :: h :: t := by
          simp [jsSplit, hsp, hx]
        rw [hsplit] at ha
        have hred : jsPop ([] :: h :: t) = jsPop (h :: t) := rfl
        rw [hred, ← hsp] at ha
        exact List.mem_cons_of_mem x (ih ha)
      · have hsplit : jsSplit c (x :: xs) = (x :: h) :: t := by
          simp [jsSplit, hsp, hx]
        rw [hsplit] at ha
        cases t with
        | nil =>
          have hred : jsPop [x :: h] = x :: h := rfl
          rw [hred] at ha
          rcases List.mem_cons.mp ha with h1 | h2
          · rw [h1]
            exact List.mem_cons_self _ _
          · have hh : jsPop (jsSplit c xs) = h := by
              rw [hsp]
              rfl
            refine List.mem_cons_of_mem x (ih ?_)
            rw [hh]
            exact h2
        | cons s t2 =>
          have hred : jsPop ((x :: h) :: s :: t2) = jsPop (s :: t2) := rfl
          rw [hred] at ha
          have hred2 : jsPop (h :: s :: t2) = jsPop (s :: t2) := rfl
          rw [← hred2, ← hsp] at ha
          exact List.mem_cons_of_mem x (ih ha)

/-- C8: for a filename containing a dot, generateUniqueFilename returns
timestamp-random.ext where ext is the part of the name after its last
dot (the last dot-split segment, which contains no dot and follows a
dot-terminated prefix of the name), and the generated key ends with
that extension. -/
theorem generated_key_keeps_extension (timestamp random name : List Char)
    (hdot : '.' ∈ name) :
    ∃ p ext,
      ext = jsPop (jsSplit '.' name) ∧
      name = p ++ '.' :: ext ∧
      '.' ∉ ext ∧
      generateUniqueFilename timestamp random name =
        timestamp ++ '-' :: (random ++ '.' :: ext) ∧
      ext <:+ generateUniqueFilename timestamp random name := by
  obtain ⟨h1, h2, -⟩ := jsSplit_pop_spec '.' name
  obtain ⟨⟨p, hp⟩, -⟩ := h2 hdot
  refine ⟨p, jsPop (jsSplit '.' name), rfl, hp, h1, rfl, ?_⟩
  refine ⟨timestamp ++ '-' :: (random ++ ['.']), ?_⟩
  simp [generateUniqueFilename]

/-- C8 witness: the generated key for photo.jpg at a concrete timestamp
and random suffix. -/
theorem generated_key_keeps_extension_witness :
    ∃ p ext,
      ext = jsPop (jsSplit '.' ("photo.jpg").data) ∧
      ("photo.jpg").data = p ++ '.' :: ext ∧
      '.' ∉ ext ∧
      generateUniqueFilename ("1234567890").data ("abc123").data
          ("photo.jpg").data =
        ("1234567890").data ++ '-' :: (("abc123").data ++ '.' :: ext) ∧
      ext <:+ generateUniqueFilename ("1234567890").data ("abc123").data
          ("photo.jpg").data :=
  generated_key_keeps_extension ("1234567890").data ("abc123").data
    ("photo.jpg").data (by decide)

/-- C10 counterexample: for the original filename a./b (whose extension
contains a slash) the storage path extracted from the public URL differs
from the path returned by the upload. -/
theorem upload_delete_roundtrip_counterexample :
    extractStoragePathFromUrl
        (uploadFileToStorage ("https://x.co/media").data
          ("1700000000000").data ("abc123").data ("a./b").data).1 ≠
      (uploadFileToStorage ("https://x.co/media").data
        ("1700000000000").data ("abc123").data ("a./b").data).2 := by
  decide

/-- C10 amended: when the timestamp, the random suffix and the original
filename contain no slash, extracting the storage path from the modelled
public URL recovers exactly the uploaded storage path, so deleteMedia
addresses the object that was uploaded. -/
theorem upload_delete_roundtrip (baseUrl timestamp random name : List Char)
    (h1 : '/' ∉ timestamp) (h2 : '/' ∉ random) (h3 : '/' ∉ name) :
    extractStoragePathFromUrl
        (uploadFileToStorage baseUrl timestamp random name).1 =
      (uploadFileToStorage baseUrl timestamp random name).2 := by
  have hext : '/' ∉ jsPop (jsSplit '.' name) :=
    fun hmem => h3 (jsPop_split_chars '.' name '/' hmem)
  have hfn : '/' ∉ generateUniqueFilename timestamp random name := by
    intro hmem
    simp only [generateUniqueFilename, List.mem_append, List.mem_cons] at hmem
    rcases hmem with hA | hB
    · exact h1 hA
    · rcases hB with hB1 | hB2
      · exact absurd hB1 (by decide)
      · rcases hB2 with hC | hD
        · exact h2 hC
        · rcases hD with hD1 | hD2
          · exact absurd hD1 (by decide)
          · exact hext hD2
  show extractStoragePathFromUrl
      (getPublicUrlModel baseUrl (generateUniqueFilename timestamp random name)) =
    generateUniqueFilename timestamp random name
  unfold extractStoragePathFromUrl getPublicUrlModel
  rw [getD_last]
  exact jsSplit_append_key '/' baseUrl _ hfn

/-- C10 amended witness: the round trip at a concrete slash-free
timestamp, suffix and filename. -/
theorem upload_delete_roundtrip_witness :
    extractStoragePathFromUrl
        (uploadFileToStorage ("https://x.co/media").data
          ("1700000000000").data ("abc123").data ("photo.jpg").data).1 =
      (uploadFileToStorage ("https://x.co/media").data
        ("1700000000000").data ("abc123").data ("photo.jpg").data).2 :=
  upload_delete_roundtrip ("https://x.co/media").data ("1700000000000").data
    ("abc123").data ("photo.jpg").data (by decide) (by decide) (by decide)
